import Mathlib

/-!
Verification of the React bindings for the Pillar SDK
(`PillarProvider.tsx`, `PillarPanel.tsx`, `usePillar.ts`, `useHelpPanel.ts`,
`usePillarTool.ts`, `index.ts`).

The package is adaptation glue around an external client singleton
(`Pillar`).  We embed the adapter layer shallowly: the external client is
an opaque value, external side effects are recorded in explicit world
records (singleton cell, registration registry, subscription registry),
effects and callbacks become explicit state-passing functions, and
exceptions become `Except`.
-/

namespace PillarReact

/-- Lifecycle state of the SDK as mirrored by the provider
(`PillarState` in the SDK; the provider uses the values
"uninitialized", "ready" and "error", plus whatever the instance itself
reports, modelled by the same type). -/
inductive PillarState where
  | uninitialized
  | loading
  | ready
  | error
  deriving DecidableEq, Repr

/-- The external Pillar SDK instance, treated as opaque apart from its
`state` property which the provider reads (`instance.state`). -/
structure PillarInst where
  state : PillarState
  deriving DecidableEq, Repr

/-- Options accepted by `open` in the context value
(`{ view?, article?, search?, focusInput? }`). -/
structure OpenOptions where
  view : Option String := none
  article : Option String := none
  search : Option String := none
  focusInput : Option Bool := none
  deriving DecidableEq, Repr

/-- External SDK calls the adapter can forward.  Theme payloads are
opaque to this layer and modelled by a token. -/
inductive ExtCall where
  | openPanel (options : Option OpenOptions)
  | closePanel
  | togglePanel
  | navigateTo (view : String) (params : Option (List (String × String)))
  | setThemeCall (theme : Nat)
  | setTextSelectionEnabledCall (enabled : Bool)
  | mountPanelToCall
  | destroyCall
  deriving DecidableEq, Repr

/-- Local state mirrored by the provider component:
`useState<PillarState>("uninitialized")` and `useState(false)` for the
panel-open flag. -/
structure LocalState where
  state : PillarState
  isPanelOpen : Bool
  deriving DecidableEq, Repr

/-- The control methods exposed through the provider context
(`open`, `close`, `toggle`, `openArticle`, `openCategory`, `search`,
`navigate`, `setTheme`, `setTextSelectionEnabled`). -/
inductive CtxMethod where
  | openM (options : Option OpenOptions)
  | closeM
  | toggleM
  | openArticleM (slug : String)
  | openCategoryM (slug : String)
  | searchM (query : String)
  | navigateM (view : String) (params : Option (List (String × String)))
  | setThemeM (theme : Nat)
  | setTextSelectionEnabledM (enabled : Bool)
  deriving DecidableEq, Repr

/-- The external call each context method forwards to the SDK instance,
read off the `useCallback` bodies in `PillarProvider.tsx`:
`openArticle(slug)` calls `pillar.open({ article: slug })`,
`openCategory(slug)` calls `pillar.navigate("category", { slug })`,
`search(query)` calls `pillar.open({ search: query })`, and the rest
forward one-to-one. -/
def forwardedCall : CtxMethod → ExtCall
  | .openM options => .openPanel options
  | .closeM => .closePanel
  | .toggleM => .togglePanel
  | .openArticleM slug => .openPanel (some { article := some slug })
  | .openCategoryM slug => .navigateTo "category" (some [("slug", slug)])
  | .searchM query => .openPanel (some { search := some query })
  | .navigateM view params => .navigateTo view params
  | .setThemeM theme => .setThemeCall theme
  | .setTextSelectionEnabledM enabled => .setTextSelectionEnabledCall enabled

/-- Behaviour of the external SDK when a call is forwarded to it: the
call either returns or throws.  The adapter makes no assumption about
it, so it is a parameter. -/
structure ExtEnv where
  callResult : ExtCall → Except String Unit

/-- Invoking a context control method.  Every method body is
`pillar?.method(...)`: when `pillar` is `null` the optional chaining
skips the call entirely; otherwise the call is forwarded to the
instance and any exception it throws propagates.  None of these nine
methods touches the provider's local `useState` values. -/
def invokeCtxMethod (env : ExtEnv) (pillar : Option PillarInst)
    (loc : LocalState) (m : CtxMethod) :
    Except String (LocalState × List ExtCall) :=
  match pillar with
  | none => .ok (loc, [])
  | some _ =>
      let c := forwardedCall m
      match env.callResult c with
      | .ok _ => .ok (loc, [c])
      | .error e => .error e

/-- The value published through the provider's context, restricted to
its data fields (`pillar`, `state`, `isReady`, `isPanelOpen`); the
method fields are modelled separately by `invokeCtxMethod` and
`ctxOn`. -/
structure PillarContextValue where
  pillar : Option PillarInst
  state : PillarState
  isReady : Bool
  isPanelOpen : Bool
  deriving DecidableEq, Repr

/-- The usage-error message thrown by `usePillarContext`. -/
def usageErrorMsg : String :=
  "usePillarContext must be used within a PillarProvider"

/-- `usePillarContext()`: reads the context; `useContext` yields `null`
outside the provider's subtree, in which case the hook throws
synchronously, and otherwise returns the context value. -/
def usePillarContext (ctx : Option PillarContextValue) :
    Except String PillarContextValue :=
  match ctx with
  | none => .error usageErrorMsg
  | some v => .ok v

/-- Result of `usePillar()`: the whole context value spread into the
result, plus a typed `onTask` wrapper (modelled by `usePillarOnTask`). -/
structure UsePillarResult where
  context : PillarContextValue
  deriving DecidableEq, Repr

/-- `usePillar()`: calls `usePillarContext()` (so it throws outside the
provider) and extends the context with the typed `onTask` wrapper. -/
def usePillar (ctx : Option PillarContextValue) :
    Except String UsePillarResult :=
  (usePillarContext ctx).map (fun c => { context := c })

/-- Result of `useHelpPanel()` restricted to its data field
(`isOpen`, renamed from the context's `isPanelOpen`); the method fields
are the context methods and are modelled by `invokeCtxMethod`. -/
structure UseHelpPanelResult where
  isOpen : Bool
  deriving DecidableEq, Repr

/-- `useHelpPanel()`: calls `usePillarContext()` (so it throws outside
the provider) and slices the panel-specific fields out of it. -/
def useHelpPanel (ctx : Option PillarContextValue) :
    Except String UseHelpPanelResult :=
  (usePillarContext ctx).map (fun c => { isOpen := c.isPanelOpen })

/-- An unsubscribe value returned by a subscription entry point: either
the fallback no-op closure `(() => \x7b\x7d)` or a live handle returned
by the SDK. -/
inductive Unsub where
  | noop
  | handle (id : Nat)
  deriving DecidableEq, Repr

/-- External subscription registry: the SDK's event bus as visible to
this layer (fresh handle ids and the set of active subscriptions). -/
structure SubWorld where
  nextSub : Nat
  active : List Nat
  deriving DecidableEq, Repr

/-- A successful external `pillar.on(...)` / `pillar.onTask(...)` call:
registers a subscription and returns its unsubscribe handle. -/
def pillarSubscribe (w : SubWorld) : SubWorld × Unsub :=
  ({ nextSub := w.nextSub + 1, active := w.active ++ [w.nextSub] },
   .handle w.nextSub)

/-- The context's `on` method:
`pillar?.on(event, callback) ?? (() => \x7b\x7d)` — when `pillar` is
`null` it returns the no-op unsubscribe closure without touching the
SDK; otherwise it subscribes. -/
def ctxOn (pillar : Option PillarInst) (_event : String) (w : SubWorld) :
    SubWorld × Unsub :=
  match pillar with
  | none => (w, .noop)
  | some _ => pillarSubscribe w

/-- `usePillar`'s typed `onTask`: returns the no-op closure when
`context.pillar` is `null`, otherwise forwards to
`context.pillar.onTask(taskName, handler)`. -/
def usePillarOnTask (pillar : Option PillarInst) (_taskName : String)
    (w : SubWorld) : SubWorld × Unsub :=
  match pillar with
  | none => (w, .noop)
  | some _ => pillarSubscribe w

/-- Calling an unsubscribe value: the no-op closure does nothing; a live
handle removes its subscription. -/
def runUnsub (w : SubWorld) (u : Unsub) : SubWorld :=
  match u with
  | .noop => w
  | .handle id => { w with active := w.active.filter (fun s => s ≠ id) }

/-- Credentials supplied to the provider (`helpCenter` subdomain and
`publicKey`); the init effect re-runs when either changes. -/
structure Creds where
  helpCenter : String
  publicKey : String
  deriving DecidableEq, Repr

/-- The external singleton world: `Pillar.getInstance()` reads
`singleton`; each `Pillar.init(...)` call bumps `initCalls` and, on
success, installs the created instance; `Pillar.destroy()` (never
called by this layer) bumps `destroyCalls` and clears the cell. -/
structure SdkWorld where
  singleton : Option PillarInst
  initCalls : Nat
  destroyCalls : Nat
  deriving DecidableEq, Repr

/-- Behaviour of the external `Pillar.init` for given credentials:
either it resolves with the created instance or it rejects.  The
adapter makes no assumption about it, so it is a parameter. -/
structure InitEnv where
  initFn : Creds → Except String PillarInst

/-- Local component state owned by the provider:
`useState<Pillar | null>(null)` plus the mirrored `LocalState`. -/
structure ProviderLocal where
  pillar : Option PillarInst
  loc : LocalState
  deriving DecidableEq, Repr

/-- Initial values of the provider's `useState` hooks on a fresh mount:
`pillar = null`, `state = "uninitialized"`, `isPanelOpen = false`. -/
def freshProviderLocal : ProviderLocal :=
  { pillar := none
    loc := { state := .uninitialized, isPanelOpen := false } }

/-- The `initPillar` routine of the provider's initialization effect.
It checks `Pillar.getInstance()`: an existing instance is reused (no
`Pillar.init` call) and, if still `mounted`, mirrored into local state;
otherwise `Pillar.init` is awaited — on success the instance is
installed as the singleton and mirrored, and on rejection the `catch`
block logs and sets the mirrored state to `"error"` (only if still
`mounted`), leaving the local `pillar` untouched.  The whole body is
wrapped in `try/catch`, so the routine itself never throws: its result
type is a plain pair, not `Except`. -/
def initPillar (env : InitEnv) (w : SdkWorld) (creds : Creds)
    (mounted : Bool) (l : ProviderLocal) : SdkWorld × ProviderLocal :=
  match w.singleton with
  | some inst =>
      (w,
       if mounted then
         { pillar := some inst, loc := { l.loc with state := inst.state } }
       else l)
  | none =>
      match env.initFn creds with
      | .ok inst =>
          ({ w with singleton := some inst, initCalls := w.initCalls + 1 },
           if mounted then
             { pillar := some inst, loc := { l.loc with state := inst.state } }
           else l)
      | .error _ =>
          ({ w with initCalls := w.initCalls + 1 },
           if mounted then { l with loc := { l.loc with state := .error } }
           else l)

/-- Cleanup returned by the initialization effect: it only flips the
`mounted` flag to `false`.  It performs no SDK call at all — in
particular it never calls `Pillar.destroy()` — so the external world is
returned unchanged. -/
def initEffectCleanup (w : SdkWorld) : Bool × SdkWorld :=
  (false, w)

/-- Explicit teardown, the embedding application's responsibility:
`Pillar.destroy()` clears the singleton.  Modelled from the spec: the
SDK's destroy is outside this repository; this layer never calls it. -/
def destroySingleton (w : SdkWorld) : SdkWorld :=
  { singleton := none, initCalls := w.initCalls
    destroyCalls := w.destroyCalls + 1 }

/-- A mount followed by an unmount of the provider: the init effect
runs (still mounted), then its cleanup runs. -/
def mountUnmountCycle (env : InitEnv) (w : SdkWorld) (creds : Creds)
    (l : ProviderLocal) : SdkWorld :=
  let (w1, _) := initPillar env w creds true l
  (initEffectCleanup w1).2

/-- Mount, unmount, then remount the provider with the same
credentials: the init effect runs, its cleanup runs, and the effect
runs again from fresh local state. -/
def remountSequence (env : InitEnv) (w : SdkWorld) (creds : Creds)
    (l : ProviderLocal) : SdkWorld :=
  let w2 := mountUnmountCycle env w creds l
  (initPillar env w2 creds true freshProviderLocal).1

/-- Inputs read by the `PillarPanel` effect on one run: the context's
`isReady` and `pillar`, and whether `containerRef.current` is
non-null. -/
structure PanelInput where
  isReady : Bool
  pillar : Option PillarInst
  containerPresent : Bool
  deriving DecidableEq, Repr

/-- Component-local state of `PillarPanel`: the `hasMounted` ref. -/
structure PanelState where
  hasMounted : Bool
  deriving DecidableEq, Repr

/-- One run of the `PillarPanel` effect: it returns early unless the
SDK is ready, the pillar reference and the container are present, and
the panel has not been mounted yet; otherwise it calls
`pillar.mountPanelTo(container)` once and sets the `hasMounted` ref. -/
def panelEffect (inp : PanelInput) (ps : PanelState) :
    PanelState × List ExtCall :=
  if !inp.isReady || inp.pillar.isNone || !inp.containerPresent
      || ps.hasMounted then
    (ps, [])
  else
    ({ hasMounted := true }, [.mountPanelToCall])

/-- A sequence of effect runs of `PillarPanel` (one per render where
the effect's dependencies changed), returning the final ref state and
the total number of external calls made. -/
def panelRuns (ps : PanelState) : List PanelInput → PanelState × Nat
  | [] => (ps, 0)
  | inp :: rest =>
      let (ps1, calls) := panelEffect inp ps
      let (ps2, n) := panelRuns ps1 rest
      (ps2, calls.length + n)

/-- Input and output of a descriptor's `execute` callback, opaque to
this layer. -/
abbrev ToolInput := Nat

/-- Output type of a descriptor's `execute` callback. -/
abbrev ToolOutput := Nat

/-- A declarative tool/action descriptor (`ToolSchema` /
`ActionSchema`): a name and an `execute` callback (description and
input schema are opaque pass-through and omitted). -/
structure ToolSchema where
  name : String
  execute : ToolInput → ToolOutput

/-- One live external registration created by `pillar.defineTool` /
`pillar.defineAction`: its handle id, the descriptor name it was
registered under, and the list index its trampoline captured. -/
structure ExtReg where
  id : Nat
  name : String
  index : Nat
  deriving DecidableEq, Repr

/-- External registration registry of the SDK: fresh handle ids and the
list of live registrations. -/
structure RegWorld where
  nextId : Nat
  regs : List ExtReg
  deriving DecidableEq, Repr

/-- One `pillar.defineTool(...)` call: adds one live registration and
returns the unsubscribe handle id. -/
def defineTool (w : RegWorld) (name : String) (index : Nat) :
    RegWorld × Nat :=
  ({ nextId := w.nextId + 1, regs := w.regs ++ [⟨w.nextId, name, index⟩] },
   w.nextId)

/-- Calling one unsubscribe handle: removes the registration with that
id. -/
def unregister (w : RegWorld) (id : Nat) : RegWorld :=
  { w with regs := w.regs.filter (fun r => r.id ≠ id) }

/-- The effect body's `schemasRef.current.map((schema, index) => ...)`
loop: registers every descriptor in order, each trampoline capturing
its index, and collects the unsubscribe handles. -/
def registerFrom (w : RegWorld) (i : Nat) :
    List ToolSchema → RegWorld × List Nat
  | [] => (w, [])
  | s :: rest =>
      let (w1, id) := defineTool w s.name i
      let (w2, ids) := registerFrom w1 (i + 1) rest
      (w2, id :: ids)

/-- The cleanup's `unsubscribes.forEach((unsub) => unsub())`. -/
def unregisterAll (w : RegWorld) (ids : List Nat) : RegWorld :=
  ids.foldl unregister w

/-- The registrations `registerFrom` appends, in closed form. -/
def batchOf (base i : Nat) : List ToolSchema → List ExtReg
  | [] => []
  | s :: rest => ⟨base, s.name, i⟩ :: batchOf (base + 1) (i + 1) rest

/-- The unsubscribe handle ids `registerFrom` returns, in closed
form. -/
def idsFrom (base : Nat) : List ToolSchema → List Nat
  | [] => []
  | _ :: rest => base :: idsFrom (base + 1) rest

/-- `schemas.map((s) => s.name).join(",")`, the effect's dependency
key. -/
def namesKey (ss : List ToolSchema) : String :=
  String.intercalate "," (ss.map (fun s => s.name))

/-- Component-local state of `usePillarTool` / `usePillarAction`:
the `schemasRef` cell (updated on every render, before effects run),
the dependency pair `[pillar, namesKey]` of the last effect run, and
the unsubscribe handles collected by the live effect run. -/
structure HookState where
  cell : List ToolSchema
  lastDeps : Option PillarInst × String
  liveIds : List Nat

/-- First effect run after the hook's component mounts: the ref already
holds the rendered descriptor list; the effect returns early when
`pillar` is `null`, and otherwise registers every descriptor. -/
def hookMount (pillar : Option PillarInst) (ss : List ToolSchema)
    (w : RegWorld) : RegWorld × HookState :=
  match pillar with
  | none => (w, { cell := ss, lastDeps := (none, namesKey ss), liveIds := [] })
  | some p =>
      let (w1, ids) := registerFrom w 0 ss
      (w1, { cell := ss, lastDeps := (some p, namesKey ss), liveIds := ids })

/-- A re-render of the hook's component: the render updates
`schemasRef.current` to the new list; then the effect re-runs only if
its dependency pair `[pillar, namesKey]` changed, in which case the
previous run's cleanup unregisters all collected handles before the
effect registers the new list (read through the ref, which now holds
the new list). -/
def hookRerender (pillar : Option PillarInst) (ss : List ToolSchema)
    (w : RegWorld) (st : HookState) : RegWorld × HookState :=
  let deps : Option PillarInst × String := (pillar, namesKey ss)
  if deps = st.lastDeps then
    (w, { st with cell := ss })
  else
    let w1 := unregisterAll w st.liveIds
    match pillar with
    | none => (w1, { cell := ss, lastDeps := deps, liveIds := [] })
    | some _ =>
        let (w2, ids) := registerFrom w1 0 ss
        (w2, { cell := ss, lastDeps := deps, liveIds := ids })

/-- Unmount of the hook's component: the live effect's cleanup
unregisters every collected handle. -/
def hookUnmount (w : RegWorld) (st : HookState) : RegWorld :=
  unregisterAll w st.liveIds

/-- Looking up a live registration by handle id. -/
def findReg : List ExtReg → Nat → Option ExtReg
  | [], _ => none
  | r :: rest, id => if r.id = id then some r else findReg rest id

/-- The SDK invoking a registered handle: the registered trampoline is
`(input) => schemasRef.current[index].execute(input)` — it dereferences
the ref cell at call time and runs the `execute` found there (`none`
when the handle is dead or the index is out of the current list's
range). -/
def invokeReg (w : RegWorld) (st : HookState) (id : Nat)
    (input : ToolInput) : Option ToolOutput :=
  match findReg w.regs id with
  | none => none
  | some r => (st.cell.get? r.index).map (fun s => s.execute input)

/-- Number of live registrations carrying a given name. -/
def countName (w : RegWorld) (n : String) : Nat :=
  w.regs.countP (fun r => r.name = n)

/-- The hook seen as a step relation for invariant reasoning: either no
component using it is mounted, or one is, with its local state. -/
inductive HookPhase where
  | unmounted
  | mounted (st : HookState)

/-- Mount / re-render / unmount steps of the registration hooks, with
the rendered descriptor lists restricted to those satisfying `P`
(`P := fun _ => True` places no restriction). -/
inductive HookStepOn (P : List ToolSchema → Prop) :
    HookPhase × RegWorld → HookPhase × RegWorld → Prop where
  | mount : ∀ pillar ss w w' st, P ss → hookMount pillar ss w = (w', st) →
      HookStepOn P (.unmounted, w) (.mounted st, w')
  | rerender : ∀ pillar ss w st w' st', P ss →
      hookRerender pillar ss w st = (w', st') →
      HookStepOn P (.mounted st, w) (.mounted st', w')
  | unmount : ∀ w st,
      HookStepOn P (.mounted st, w) (.unmounted, hookUnmount w st)

/-- States reachable from an empty registry with no component
mounted. -/
def HookReachable (P : List ToolSchema → Prop)
    (s : HookPhase × RegWorld) : Prop :=
  Relation.ReflTransGen (HookStepOn P) (.unmounted, ⟨0, []⟩) s

/-- The rendered descriptor lists' names are pairwise distinct. -/
def NodupNames (ss : List ToolSchema) : Prop :=
  (ss.map (fun s => s.name)).Nodup

/-- Inductive invariant of the registration-hook machine: while no
component is mounted the hook owns no registration; while one is
mounted, the live registrations are exactly one batch registered from
some previously rendered descriptor list, and the hook holds exactly
that batch's unsubscribe handles. -/
def hookInvariant : HookPhase × RegWorld → Prop
  | (.unmounted, w) => w.regs = []
  | (.mounted st, w) =>
      ∃ base ss₀, NodupNames ss₀ ∧ w.regs = batchOf base 0 ss₀ ∧
        st.liveIds = idsFrom base ss₀

/-- A sample ready SDK instance. -/
def sampleInst : PillarInst := { state := .ready }

/-- Sample provider credentials. -/
def sampleCreds : Creds := { helpCenter := "acme", publicKey := "pk_test" }

/-- An external init behaviour that succeeds with `sampleInst`. -/
def okInitEnv : InitEnv := { initFn := fun _ => .ok sampleInst }

/-- An external init behaviour that rejects. -/
def failInitEnv : InitEnv := { initFn := fun _ => .error "network unreachable" }

/-- The SDK world before anything was initialized. -/
def emptySdkWorld : SdkWorld :=
  { singleton := none, initCalls := 0, destroyCalls := 0 }

/-- The registration registry before anything was registered. -/
def emptyRegWorld : RegWorld := { nextId := 0, regs := [] }

/-- A descriptor list as first rendered. -/
def schemasV1 : List ToolSchema :=
  [{ name := "add_to_cart", execute := fun n => n + 1 }]

/-- The same descriptor list after a re-render that replaced the
`execute` callback but kept the name. -/
def schemasV2 : List ToolSchema :=
  [{ name := "add_to_cart", execute := fun n => n * 2 }]

/-- A descriptor list declaring two descriptors with the same name. -/
def dupSchemas : List ToolSchema :=
  [{ name := "upgrade_plan", execute := fun n => n },
   { name := "upgrade_plan", execute := fun n => n + 1 }]

/-! ### Lemmas about the registration registry -/

theorem registerFrom_eq (ss : List ToolSchema) :
    ∀ (w : RegWorld) (i : Nat),
      registerFrom w i ss
        = ({ nextId := w.nextId + ss.length
             regs := w.regs ++ batchOf w.nextId i ss },
           idsFrom w.nextId ss) := by
  induction ss with
  | nil => intro w i; simp [registerFrom, batchOf, idsFrom]
  | cons s rest ih =>
      intro w i
      simp only [registerFrom, defineTool, ih, batchOf, idsFrom,
        List.length_cons, List.append_assoc, List.cons_append,
        List.nil_append]
      have harith : w.nextId + 1 + rest.length = w.nextId + (rest.length + 1) := by
        omega
      rw [harith]

theorem batchOf_id_ge (ss : List ToolSchema) :
    ∀ (base i : Nat) (r : ExtReg), r ∈ batchOf base i ss → base ≤ r.id := by
  induction ss with
  | nil => intro base i r hr; simp [batchOf] at hr
  | cons s rest ih =>
      intro base i r hr
      simp only [batchOf, List.mem_cons] at hr
      rcases hr with h | h
      · subst h; exact Nat.le_refl _
      · exact Nat.le_of_succ_le (ih (base + 1) (i + 1) r h)

theorem batchOf_length (ss : List ToolSchema) :
    ∀ (base i : Nat), (batchOf base i ss).length = ss.length := by
  induction ss with
  | nil => intro base i; simp [batchOf]
  | cons s rest ih => intro base i; simp [batchOf, ih]

theorem batchOf_countP (ss : List ToolSchema) (n : String) :
    ∀ (base i : Nat),
      (batchOf base i ss).countP (fun r => r.name = n)
        = ss.countP (fun s => s.name = n) := by
  induction ss with
  | nil => intro base i; simp [batchOf]
  | cons s rest ih =>
      intro base i
      simp [batchOf, List.countP_cons, ih]

theorem filter_ne_id_of_forall (base : Nat) (l : List ExtReg)
    (h : ∀ r ∈ l, r.id ≠ base) :
    l.filter (fun r => r.id ≠ base) = l := by
  induction l with
  | nil => rfl
  | cons r rest ih =>
      rw [List.filter_cons, if_pos (by simpa using h r (List.mem_cons_self r rest)),
        ih (fun x hx => h x (List.mem_cons_of_mem r hx))]

theorem unregisterAll_batch (ss : List ToolSchema) :
    ∀ (pre : List ExtReg) (base i nid : Nat),
      (∀ r ∈ pre, r.id < base) →
      unregisterAll { nextId := nid, regs := pre ++ batchOf base i ss }
          (idsFrom base ss)
        = { nextId := nid, regs := pre } := by
  induction ss with
  | nil => intro pre base i nid _; simp [batchOf, idsFrom, unregisterAll]
  | cons s rest ih =>
      intro pre base i nid hpre
      have hstep :
          unregister { nextId := nid, regs := pre ++ batchOf base i (s :: rest) }
              base
            = { nextId := nid, regs := pre ++ batchOf (base + 1) (i + 1) rest } := by
        unfold unregister
        congr 1
        have hbatch : batchOf base i (s :: rest)
            = ExtReg.mk base s.name i :: batchOf (base + 1) (i + 1) rest := rfl
        rw [hbatch, List.filter_append, List.filter_cons,
          if_neg (by simp),
          filter_ne_id_of_forall base pre
            (fun r hr => by have := hpre r hr; omega),
          filter_ne_id_of_forall base (batchOf (base + 1) (i + 1) rest)
            (fun r hr => by have := batchOf_id_ge rest (base + 1) (i + 1) r hr; omega)]
      have hids : idsFrom base (s :: rest) = base :: idsFrom (base + 1) rest := rfl
      calc unregisterAll { nextId := nid, regs := pre ++ batchOf base i (s :: rest) }
              (idsFrom base (s :: rest))
          = unregisterAll
              (unregister { nextId := nid, regs := pre ++ batchOf base i (s :: rest) }
                base)
              (idsFrom (base + 1) rest) := by
            rw [hids]; rfl
        _ = unregisterAll { nextId := nid, regs := pre ++ batchOf (base + 1) (i + 1) rest }
              (idsFrom (base + 1) rest) := by rw [hstep]
        _ = { nextId := nid, regs := pre } := by
            apply ih
            intro r hr
            exact Nat.lt_succ_of_lt (hpre r hr)

theorem findReg_append_right (l1 l2 : List ExtReg) (id : Nat)
    (h : ∀ r ∈ l1, r.id ≠ id) :
    findReg (l1 ++ l2) id = findReg l2 id := by
  induction l1 with
  | nil => rfl
  | cons r rest ih =>
      simp only [List.cons_append, findReg]
      rw [if_neg (h r (List.mem_cons_self r rest))]
      exact ih (fun x hx => h x (List.mem_cons_of_mem r hx))

theorem findReg_batchOf (ss : List ToolSchema) :
    ∀ (base i k : Nat) (hk : k < ss.length),
      findReg (batchOf base i ss) (base + k)
        = some ⟨base + k, (ss.get ⟨k, hk⟩).name, i + k⟩ := by
  induction ss with
  | nil => intro base i k hk; exact absurd hk (by simp)
  | cons s rest ih =>
      intro base i k hk
      match k with
      | 0 => simp [batchOf, findReg]
      | Nat.succ k' =>
          have hne : base ≠ base + (k' + 1) := by omega
          have hk' : k' < rest.length := Nat.lt_of_succ_lt_succ hk
          simp only [batchOf, findReg, if_neg hne]
          have := ih (base + 1) (i + 1) k' hk'
          have harith : base + 1 + k' = base + (k' + 1) := by omega
          have harith2 : i + 1 + k' = i + (k' + 1) := by omega
          rw [harith, harith2] at this
          rw [this]
          rfl

theorem countP_name_le_one (ss : List ToolSchema) (n : String)
    (h : (ss.map (fun s => s.name)).Nodup) :
    ss.countP (fun s => s.name = n) ≤ 1 := by
  induction ss with
  | nil => simp
  | cons s rest ih =>
      simp only [List.map_cons, List.nodup_cons] at h
      by_cases hs : s.name = n
      · have hzero : rest.countP (fun x => x.name = n) = 0 := by
          apply List.countP_eq_zero.mpr
          intro x hx
          simp only [decide_eq_true_eq]
          intro hxn
          exact h.1 (by
            rw [← hs] at hxn
            exact List.mem_map.mpr ⟨x, hx, hxn⟩)
        simp [List.countP_cons, hs, hzero]
      · simp only [List.countP_cons, decide_eq_true_eq, hs, if_false]
        simpa using ih h.2

/-! ### Lemmas about the panel-mount effect and the hook invariant -/

theorem panelRuns_le (inputs : List PanelInput) :
    ∀ ps : PanelState,
      (panelRuns ps inputs).2 ≤ if ps.hasMounted then 0 else 1 := by
  induction inputs with
  | nil => intro ps; simp [panelRuns]
  | cons inp rest ih =>
      intro ps
      by_cases hc : (!inp.isReady || inp.pillar.isNone || !inp.containerPresent
          || ps.hasMounted) = true
      · have heff : panelEffect inp ps = (ps, []) := by
          simp [panelEffect, hc]
        simp only [panelRuns, heff, List.length_nil, Nat.zero_add]
        exact ih ps
      · have heff : panelEffect inp ps
            = ({ hasMounted := true }, [.mountPanelToCall]) := by
          simp [panelEffect, hc]
        have hM : ps.hasMounted = false := by
          revert hc
          cases hMv : ps.hasMounted <;> simp
        have hrest := ih { hasMounted := true }
        simp only [PanelState.hasMounted] at hrest
        simp at hrest
        simp only [panelRuns, heff, List.length_cons, List.length_nil, hM,
          if_neg Bool.false_ne_true]
        omega

theorem hookInvariant_step {s s' : HookPhase × RegWorld}
    (hstep : HookStepOn NodupNames s s') (hinv : hookInvariant s) :
    hookInvariant s' := by
  cases hstep with
  | mount pillar ss w w' st hP heq =>
      simp only [hookInvariant] at hinv
      cases pillar with
      | none =>
          simp only [hookMount, Prod.mk.injEq] at heq
          obtain ⟨hw, hst⟩ := heq
          subst hw; subst hst
          exact ⟨w.nextId, [], by simp [NodupNames],
            by simp [batchOf, hinv], rfl⟩
      | some p =>
          simp only [hookMount, registerFrom_eq, Prod.mk.injEq] at heq
          obtain ⟨hw, hst⟩ := heq
          subst hw; subst hst
          exact ⟨w.nextId, ss, hP, by simp [hinv], rfl⟩
  | rerender pillar ss w st w' st' hP heq =>
      simp only [hookInvariant] at hinv
      obtain ⟨base, ss₀, hnodup, hregs, hids⟩ := hinv
      have hw : w = { nextId := w.nextId, regs := batchOf base 0 ss₀ } := by
        cases w; simpa using hregs
      have hclean : unregisterAll w st.liveIds
          = { nextId := w.nextId, regs := [] } := by
        rw [hids, hw]
        exact unregisterAll_batch ss₀ [] base 0 w.nextId (by simp)
      by_cases hdep : ((pillar, namesKey ss) : Option PillarInst × String)
          = st.lastDeps
      · simp only [hookRerender, if_pos hdep, Prod.mk.injEq] at heq
        obtain ⟨hw', hst'⟩ := heq
        subst hw'; subst hst'
        exact ⟨base, ss₀, hnodup, hregs, hids⟩
      · cases pillar with
        | none =>
            simp only [hookRerender, if_neg hdep, hclean, Prod.mk.injEq] at heq
            obtain ⟨hw', hst'⟩ := heq
            subst hw'; subst hst'
            exact ⟨w.nextId, [], by simp [NodupNames], by simp [batchOf], rfl⟩
        | some p =>
            simp only [hookRerender, if_neg hdep, hclean, registerFrom_eq,
              Prod.mk.injEq] at heq
            obtain ⟨hw', hst'⟩ := heq
            subst hw'; subst hst'
            exact ⟨w.nextId, ss, hP, by simp, rfl⟩
  | unmount w st =>
      simp only [hookInvariant] at hinv ⊢
      obtain ⟨base, ss₀, hnodup, hregs, hids⟩ := hinv
      have hw : w = { nextId := w.nextId, regs := batchOf base 0 ss₀ } := by
        cases w; simpa using hregs
      have hclean : hookUnmount w st = { nextId := w.nextId, regs := [] } := by
        unfold hookUnmount
        rw [hids, hw]
        exact unregisterAll_batch ss₀ [] base 0 w.nextId (by simp)
      rw [hclean]

theorem hookReachable_invariant (s : HookPhase × RegWorld)
    (h : HookReachable NodupNames s) : hookInvariant s := by
  unfold HookReachable at h
  induction h with
  | refl => simp [hookInvariant]
  | tail hrel hstep ih => exact hookInvariant_step hstep ih

/-! ### Claim theorems -/

/-- C1: every control method exposed through the provider context
(`open`, `close`, `toggle`, `openArticle`, `openCategory`, `search`,
`navigate`, `setTheme`, `setTextSelectionEnabled`), invoked while the
singleton reference is absent (`pillar` is `null`), is a no-op: it
returns normally (never throws, for any external behaviour), makes no
external SDK call, and leaves all local mirrored state unchanged. -/
theorem control_methods_noop_when_pillar_absent
    (env : ExtEnv) (loc : LocalState) (m : CtxMethod) :
    invokeCtxMethod env none loc m = .ok (loc, []) := rfl

/-- C2: each read hook (`usePillarContext`, and hence `usePillar` and
`useHelpPanel`) raises the usage error synchronously when evaluated
outside the provider's subtree (context value `null`), and inside the
subtree returns the context value without error. -/
theorem read_hooks_fail_fast_outside_provider :
    usePillarContext none = .error usageErrorMsg ∧
    usePillar none = .error usageErrorMsg ∧
    useHelpPanel none = .error usageErrorMsg ∧
    ∀ v : PillarContextValue,
      usePillarContext (some v) = .ok v ∧
      usePillar (some v) = .ok { context := v } ∧
      useHelpPanel (some v) = .ok { isOpen := v.isPanelOpen } :=
  ⟨rfl, rfl, rfl, fun _ => ⟨rfl, rfl, rfl⟩⟩

/-- C3: over a mount, unmount, remount sequence of the provider with
unchanged credentials, given that the external init call for those
credentials succeeds, the initialization effect's get-instance check
finds the singleton created by the first mount and reuses it, so
`Pillar.init` is called at most once over the whole sequence. -/
theorem remount_reuses_singleton (env : InitEnv) (w : SdkWorld)
    (creds : Creds) (l : ProviderLocal) (inst : PillarInst)
    (hinit : env.initFn creds = .ok inst) :
    (remountSequence env w creds l).initCalls ≤ w.initCalls + 1 := by
  unfold remountSequence mountUnmountCycle initEffectCleanup
  cases hs : w.singleton with
  | some i => simp [initPillar, hs]
  | none => simp [initPillar, hs, hinit]

theorem remount_reuses_singleton_witness :
    okInitEnv.initFn sampleCreds = .ok sampleInst ∧
    (remountSequence okInitEnv emptySdkWorld sampleCreds
        freshProviderLocal).initCalls ≤ emptySdkWorld.initCalls + 1 :=
  ⟨rfl, remount_reuses_singleton okInitEnv emptySdkWorld sampleCreds
    freshProviderLocal sampleInst rfl⟩

/-- C4: the cleanup of the initialization effect never invokes the
external destroy: it returns the SDK world unchanged, the whole
mount/unmount cycle leaves the singleton cell exactly as the mount's
init run left it and never bumps the destroy counter; only the explicit
`Pillar.destroy` (the embedding application's call) clears the
singleton. -/
theorem unmount_never_destroys (env : InitEnv) (w : SdkWorld)
    (creds : Creds) (l : ProviderLocal) :
    initEffectCleanup ((initPillar env w creds true l).1)
        = (false, (initPillar env w creds true l).1) ∧
    (mountUnmountCycle env w creds l).singleton
        = ((initPillar env w creds true l).1).singleton ∧
    (mountUnmountCycle env w creds l).destroyCalls = w.destroyCalls ∧
    (destroySingleton w).singleton = none ∧
    (destroySingleton w).destroyCalls = w.destroyCalls + 1 := by
  refine ⟨rfl, rfl, ?_, rfl, rfl⟩
  unfold mountUnmountCycle initEffectCleanup
  cases hs : w.singleton with
  | some i => simp [initPillar, hs]
  | none => cases henv : env.initFn creds <;> simp [initPillar, hs, henv]

/-- C5: when the external init call rejects, the error is caught inside
`initPillar`: the routine returns normally (its result type is a plain
pair, embedding the `try/catch`), the mirrored state is set to the
error value, and the local pillar reference stays `null` while the
singleton cell stays empty. -/
theorem init_failure_caught (env : InitEnv) (w : SdkWorld) (creds : Creds)
    (msg : String) (hfail : env.initFn creds = .error msg)
    (hs : w.singleton = none) :
    initPillar env w creds true freshProviderLocal
      = ({ w with initCalls := w.initCalls + 1 },
         { pillar := none,
           loc := { state := .error, isPanelOpen := false } }) := by
  simp [initPillar, hs, hfail, freshProviderLocal]

theorem init_failure_caught_witness :
    failInitEnv.initFn sampleCreds = .error "network unreachable" ∧
    emptySdkWorld.singleton = none ∧
    initPillar failInitEnv emptySdkWorld sampleCreds true freshProviderLocal
      = ({ emptySdkWorld with initCalls := emptySdkWorld.initCalls + 1 },
         { pillar := none,
           loc := { state := .error, isPanelOpen := false } }) :=
  ⟨rfl, rfl, init_failure_caught failInitEnv emptySdkWorld sampleCreds
    "network unreachable" rfl rfl⟩

/-- C8: across any sequence of effect runs of `PillarPanel` starting
from an unmounted panel, the external mount-panel call is made at most
once; the first run with readiness, a pillar reference and a non-null
container mounts the panel and sets the has-mounted ref, and once the
ref is set no further run makes any call. -/
theorem panel_mounts_at_most_once :
    (∀ inputs : List PanelInput,
        (panelRuns { hasMounted := false } inputs).2 ≤ 1) ∧
    (∀ p : PillarInst,
        panelEffect
            { isReady := true, pillar := some p, containerPresent := true }
            { hasMounted := false }
          = ({ hasMounted := true }, [.mountPanelToCall])) ∧
    (∀ inputs : List PanelInput,
        (panelRuns { hasMounted := true } inputs).2 = 0) := by
  refine ⟨fun inputs => ?_, fun p => rfl, fun inputs => ?_⟩
  · simpa using panelRuns_le inputs { hasMounted := false }
  · exact Nat.le_zero.mp (by simpa using panelRuns_le inputs { hasMounted := true })

/-- C10: subscribing before the singleton exists is safe: for every
event name, the context's `on` with `pillar` `null` returns the no-op
unsubscribe closure (not an exception, not `undefined`) without
touching the SDK, `usePillar`'s typed `onTask` does the same, and
calling the no-op unsubscribe changes nothing. -/
theorem subscribe_before_singleton_safe :
    ∀ (event taskName : String) (w w' : SubWorld),
      ctxOn none event w = (w, .noop) ∧
      usePillarOnTask none taskName w = (w, .noop) ∧
      runUnsub w' .noop = w' :=
  fun _ _ _ _ => ⟨rfl, rfl, rfl⟩

/-- C6: after a re-render that replaces a descriptor's `execute`
callback without changing any name, the effect does not re-run (its
dependency key is unchanged), the external registrations persist, and
invoking the `k`-th registered handle runs the callback found in the
latest-schemas cell at call time — the new callback. -/
theorem execute_uses_latest_callback
    (w : RegWorld) (p : PillarInst) (ss1 ss2 : List ToolSchema)
    (k : Nat) (input : ToolInput)
    (hfresh : ∀ r ∈ w.regs, r.id < w.nextId)
    (hnames : ss1.map (fun s => s.name) = ss2.map (fun s => s.name))
    (hk : k < ss2.length) :
    hookRerender (some p) ss2 (hookMount (some p) ss1 w).1
        (hookMount (some p) ss1 w).2
      = ((hookMount (some p) ss1 w).1,
         { (hookMount (some p) ss1 w).2 with cell := ss2 }) ∧
    invokeReg (hookMount (some p) ss1 w).1
        { (hookMount (some p) ss1 w).2 with cell := ss2 }
        (w.nextId + k) input
      = some ((ss2.get ⟨k, hk⟩).execute input) := by
  have hkey : namesKey ss2 = namesKey ss1 := by
    unfold namesKey; rw [hnames]
  have hlen : ss1.length = ss2.length := by
    have := congrArg List.length hnames; simpa using this
  have hmount : hookMount (some p) ss1 w
      = ({ nextId := w.nextId + ss1.length
           regs := w.regs ++ batchOf w.nextId 0 ss1 },
         { cell := ss1, lastDeps := (some p, namesKey ss1)
           liveIds := idsFrom w.nextId ss1 }) := by
    simp [hookMount, registerFrom_eq]
  constructor
  · rw [hmount]
    simp [hookRerender, hkey]
  · rw [hmount]
    unfold invokeReg
    have hfind : findReg (w.regs ++ batchOf w.nextId 0 ss1) (w.nextId + k)
        = some ⟨w.nextId + k, (ss1.get ⟨k, hlen ▸ hk⟩).name, 0 + k⟩ := by
      rw [findReg_append_right _ _ _
        (fun r hr => by have := hfresh r hr; omega)]
      exact findReg_batchOf ss1 w.nextId 0 k (hlen ▸ hk)
    simp only [hfind]
    have hget : ss2.get? (0 + k) = some (ss2.get ⟨k, hk⟩) := by
      rw [Nat.zero_add]
      exact List.get?_eq_get hk
    simp only [hget]
    rfl

theorem execute_uses_latest_callback_witness :
    (∀ r ∈ emptyRegWorld.regs, r.id < emptyRegWorld.nextId) ∧
    schemasV1.map (fun s => s.name) = schemasV2.map (fun s => s.name) ∧
    invokeReg (hookMount (some sampleInst) schemasV1 emptyRegWorld).1
        { (hookMount (some sampleInst) schemasV1 emptyRegWorld).2 with
            cell := schemasV2 }
        (emptyRegWorld.nextId + 0) 5
      = some ((schemasV2.get ⟨0, by decide⟩).execute 5) :=
  ⟨by simp [emptyRegWorld], rfl,
   (execute_uses_latest_callback emptyRegWorld sampleInst schemasV1 schemasV2
     0 5 (by simp [emptyRegWorld]) rfl (by decide)).2⟩

/-- C7: a mounted registration-hook component registers exactly one
external handle per descriptor in its list (one `defineTool` call per
entry, names repeated or not), and unmounting removes exactly those
registrations: the registry's length grows by the list length, the
per-name count grows by the number of descriptors carrying that name,
and after unmount the registry is back to its original contents. -/
theorem register_unregister_balanced
    (w : RegWorld) (p : PillarInst) (ss : List ToolSchema)
    (hfresh : ∀ r ∈ w.regs, r.id < w.nextId) :
    ((hookMount (some p) ss w).1).regs.length = w.regs.length + ss.length ∧
    (∀ n, countName (hookMount (some p) ss w).1 n
        = countName w n + ss.countP (fun s => s.name = n)) ∧
    (hookUnmount (hookMount (some p) ss w).1
        (hookMount (some p) ss w).2).regs = w.regs := by
  have hmount : hookMount (some p) ss w
      = ({ nextId := w.nextId + ss.length
           regs := w.regs ++ batchOf w.nextId 0 ss },
         { cell := ss, lastDeps := (some p, namesKey ss)
           liveIds := idsFrom w.nextId ss }) := by
    simp [hookMount, registerFrom_eq]
  refine ⟨?_, ?_, ?_⟩
  · rw [hmount]; simp [batchOf_length]
  · intro n
    rw [hmount]
    simp [countName, List.countP_append, batchOf_countP]
  · rw [hmount]
    unfold hookUnmount
    rw [unregisterAll_batch ss w.regs w.nextId 0 (w.nextId + ss.length) hfresh]

theorem register_unregister_balanced_witness :
    (∀ r ∈ emptyRegWorld.regs, r.id < emptyRegWorld.nextId) ∧
    ((hookMount (some sampleInst) dupSchemas emptyRegWorld).1).regs.length
        = emptyRegWorld.regs.length + dupSchemas.length ∧
    countName (hookMount (some sampleInst) dupSchemas emptyRegWorld).1
        "upgrade_plan"
      = countName emptyRegWorld "upgrade_plan"
        + dupSchemas.countP (fun s => s.name = "upgrade_plan") ∧
    (hookUnmount (hookMount (some sampleInst) dupSchemas emptyRegWorld).1
        (hookMount (some sampleInst) dupSchemas emptyRegWorld).2).regs
      = emptyRegWorld.regs := by
  have h := register_unregister_balanced emptyRegWorld sampleInst dupSchemas
    (by simp [emptyRegWorld])
  exact ⟨by simp [emptyRegWorld], h.1, h.2.1 "upgrade_plan", h.2.2⟩

/-- C9 counterexample: the claim as stated fails on the code: mounting
a component that declares two descriptors with the same name reaches a
state of the unrestricted mount/re-render/unmount relation in which two
external registrations exist under that one declared name. -/
theorem per_name_invariant_cex :
    HookReachable (fun _ => True)
      (.mounted (hookMount (some sampleInst) dupSchemas emptyRegWorld).2,
       (hookMount (some sampleInst) dupSchemas emptyRegWorld).1) ∧
    "upgrade_plan" ∈ dupSchemas.map (fun s => s.name) ∧
    countName (hookMount (some sampleInst) dupSchemas emptyRegWorld).1
        "upgrade_plan" = 2 := by
  refine ⟨Relation.ReflTransGen.single
      (HookStepOn.mount (some sampleInst) dupSchemas emptyRegWorld
        (hookMount (some sampleInst) dupSchemas emptyRegWorld).1
        (hookMount (some sampleInst) dupSchemas emptyRegWorld).2
        trivial rfl),
    by simp [dupSchemas], ?_⟩
  rfl

/-- C9 (amended): while the declared descriptor lists never repeat a
name, every state reachable by the mount/re-render/unmount relation of
the registration hooks carries at most one live external registration
per name. -/
theorem at_most_one_registration_per_name
    (s : HookPhase × RegWorld) (h : HookReachable NodupNames s)
    (n : String) : countName s.2 n ≤ 1 := by
  have hinv := hookReachable_invariant s h
  obtain ⟨phase, w⟩ := s
  cases phase with
  | unmounted =>
      simp only [hookInvariant] at hinv
      simp [countName, hinv]
  | mounted st =>
      simp only [hookInvariant] at hinv
      obtain ⟨base, ss₀, hnodup, hregs, -⟩ := hinv
      unfold countName
      rw [hregs, batchOf_countP]
      exact countP_name_le_one ss₀ n hnodup

theorem at_most_one_registration_per_name_witness :
    countName (hookMount (some sampleInst) schemasV1 emptyRegWorld).1
        "add_to_cart" ≤ 1 :=
  at_most_one_registration_per_name
    (.mounted (hookMount (some sampleInst) schemasV1 emptyRegWorld).2,
     (hookMount (some sampleInst) schemasV1 emptyRegWorld).1)
    (Relation.ReflTransGen.single
      (HookStepOn.mount (some sampleInst) schemasV1 emptyRegWorld
        (hookMount (some sampleInst) schemasV1 emptyRegWorld).1
        (hookMount (some sampleInst) schemasV1 emptyRegWorld).2
        (by simp [NodupNames, schemasV1]) rfl))
    "add_to_cart"

end PillarReact
